import Mathlib

/-!
# gpio_jtag.c : the JTAG / GPIO pin-mode handler

A shallow embedding of `SysTickIntHandler` of `src/gpio_jtag.c` and of the
global `g_ui32Mode` it toggles.

* Machine words are natural numbers; every store to a `uint32_t` object keeps
  the value modulo `2^32` (`U32`), every store to a `uint8_t` object keeps it
  modulo `2^8`.
* The memory-mapped registers are a register file: a load returns the value
  of the last store.  This is the view of a test double that captures the
  register accesses of the handler.
* The handler returns the new state together with the ordered list of the
  register accesses and ROM calls it performed (its trace).
* `GPIO_LOCK_KEY` and `USR_SW1` come from headers that are not part of the
  repository; they are parameters of the definitions.
-/

namespace GpioJtag

/-! ## Data model -/

/-- Value held by a `uint32_t` object after `n` is stored into it. -/
def U32 (n : Nat) : Nat := n % 4294967296

/-- Port C registers the handler reaches through `HWREG(GPIO_PORTC_BASE + offset)`:
`GPIO_O_LOCK`, `GPIO_O_CR`, `GPIO_O_AFSEL`, and the direction and
digital-enable registers configured by the pin-type call. -/
inductive Reg where
  | LOCK
  | CR
  | AFSEL
  | DIR
  | DEN
  deriving DecidableEq

/-- One entry of the trace of the handler, in program order.

* `store r v` : `HWREG(r) = v`, with `v` the 32-bit value stored;
* `orStore r mask old new` : `HWREG(r) |= mask`, which loaded `old` and stored `new`;
* `andStore r mask old new` : `HWREG(r) &= mask`, which loaded `old` and stored `new`;
* `pinTypeGPIOInput pins` : the call `ROM_GPIOPinTypeGPIOInput(GPIO_PORTC_BASE, pins)`;
* `pinWrite pins val` : the call `ROM_GPIOPinWrite(GPIO_PORTN_BASE, pins, val)`. -/
inductive Event where
  | store (r : Reg) (v : Nat)
  | orStore (r : Reg) (mask old new : Nat)
  | andStore (r : Reg) (mask old new : Nat)
  | pinTypeGPIOInput (pins : Nat)
  | pinWrite (pins val : Nat)
  deriving DecidableEq

/-- The global `g_ui32Mode` (line 90), the port C registers, and the port N
data pins that drive the LEDs. -/
structure State where
  g_ui32Mode : Nat
  LOCK : Nat
  CR : Nat
  AFSEL : Nat
  DIR : Nat
  DEN : Nat
  DATA_N : Nat
  deriving DecidableEq

/-- A state under construction together with the trace emitted so far. -/
abbrev Run := State × List Event

/-- Load of `HWREG(GPIO_PORTC_BASE + r)`. -/
def State.load (s : State) : Reg → Nat
  | Reg.LOCK => s.LOCK
  | Reg.CR => s.CR
  | Reg.AFSEL => s.AFSEL
  | Reg.DIR => s.DIR
  | Reg.DEN => s.DEN

/-- Store of a 32-bit value into `HWREG(GPIO_PORTC_BASE + r)`. -/
def State.store (s : State) (r : Reg) (v : Nat) : State :=
  match r with
  | Reg.LOCK => { s with LOCK := U32 v }
  | Reg.CR => { s with CR := U32 v }
  | Reg.AFSEL => { s with AFSEL := U32 v }
  | Reg.DIR => { s with DIR := U32 v }
  | Reg.DEN => { s with DEN := U32 v }

/-- The statement `HWREG(GPIO_PORTC_BASE + r) = v;`. -/
def HWREG_assign (r : Reg) (v : Nat) (c : Run) : Run :=
  (c.1.store r v, c.2 ++ [Event.store r (U32 v)])

/-- The statement `HWREG(GPIO_PORTC_BASE + r) |= mask;` (load, or, store). -/
def HWREG_or (r : Reg) (mask : Nat) (c : Run) : Run :=
  let old := c.1.load r
  let new := old ||| mask
  (c.1.store r new, c.2 ++ [Event.orStore r mask old (U32 new)])

/-- The statement `HWREG(GPIO_PORTC_BASE + r) &= mask;` (load, and, store). -/
def HWREG_and (r : Reg) (mask : Nat) (c : Run) : Run :=
  let old := c.1.load r
  let new := old &&& mask
  (c.1.store r new, c.2 ++ [Event.andStore r mask old (U32 new)])

/-- Modelled from the spec: the pin bit mask `GPIO_PIN_0` of `driverlib/gpio.h`,
which is not in the repository; the value is the one the source gives `PIN_0`
(line 71). -/
def GPIO_PIN_0 : Nat := 1

/-- Modelled from the spec: the pin bit mask `GPIO_PIN_1` of `driverlib/gpio.h`,
which is not in the repository; the value is the one the source gives `PIN_1`
(line 72). -/
def GPIO_PIN_1 : Nat := 2

/-- Modelled from the spec: the pin bit mask `GPIO_PIN_2` of `driverlib/gpio.h`,
which is not in the repository; the value is the one the source gives `PIN_2`
(line 73). -/
def GPIO_PIN_2 : Nat := 4

/-- Modelled from the spec: the pin bit mask `GPIO_PIN_3` of `driverlib/gpio.h`,
which is not in the repository; the value is the one the source gives `PIN_3`
(line 74). -/
def GPIO_PIN_3 : Nat := 8

/-- Modelled from the spec: `ROM_GPIOPinTypeGPIOInput(GPIO_PORTC_BASE, pins)`, a ROM
routine whose code is not in the repository.  The spec has it configure the
named pins as digital inputs: direction = in (direction bit cleared),
digital-enable = on, alternate-function = off; the other pins keep their
configuration.  The argument is a `uint8_t`.  The call is one entry of the
trace. -/
def ROM_GPIOPinTypeGPIOInput (ui8Pins : Nat) (c : Run) : Run :=
  let pins := ui8Pins % 256
  ({ c.1 with
      DIR := U32 (c.1.DIR &&& (4294967295 ^^^ pins))
      AFSEL := U32 (c.1.AFSEL &&& (4294967295 ^^^ pins))
      DEN := U32 (c.1.DEN ||| pins) },
   c.2 ++ [Event.pinTypeGPIOInput pins])

/-- Modelled from the spec: `ROM_GPIOPinWrite(GPIO_PORTN_BASE, pins, val)`, a ROM
routine whose code is not in the repository: the digital output sink of the
spec.  Each of the eight port N pins selected by `pins` is set or cleared
according to the same bit of `val`; the other pins keep their level.  Both
arguments are `uint8_t`.  The call is one entry of the trace. -/
def ROM_GPIOPinWrite (ui8Pins ui8Val : Nat) (c : Run) : Run :=
  let pins := ui8Pins % 256
  let val := ui8Val % 256
  ({ c.1 with DATA_N := ((c.1.DATA_N % 256) &&& (255 ^^^ pins)) ||| (val &&& pins) },
   c.2 ++ [Event.pinWrite pins val])

/-- Modelled from the spec: the preprocessor definition
`BUTTON_PRESSED(button, buttons, changed)` of `drivers/buttons.h`, which is not
in the repository: the button is reported changed since the last poll and is
reported pressed now. -/
def BUTTON_PRESSED (button buttons changed : Nat) : Bool :=
  (button &&& changed != 0) && (button &&& buttons != 0)

/-! ## The handler -/

/-- Lines 140 to 160: the branch taken when the new mode is zero.  PC0-3
become hardware (JTAG) pins. -/
def jtagBranch (GPIO_LOCK_KEY : Nat) (c : Run) : Run :=
  c
  |> HWREG_assign Reg.LOCK GPIO_LOCK_KEY
  |> HWREG_assign Reg.CR 0x01
  |> HWREG_or Reg.AFSEL 0x01
  |> HWREG_assign Reg.LOCK GPIO_LOCK_KEY
  |> HWREG_assign Reg.CR 0x02
  |> HWREG_or Reg.AFSEL 0x02
  |> HWREG_assign Reg.LOCK GPIO_LOCK_KEY
  |> HWREG_assign Reg.CR 0x04
  |> HWREG_or Reg.AFSEL 0x04
  |> HWREG_assign Reg.LOCK GPIO_LOCK_KEY
  |> HWREG_assign Reg.CR 0x08
  |> HWREG_or Reg.AFSEL 0x08
  |> HWREG_assign Reg.LOCK GPIO_LOCK_KEY
  |> HWREG_assign Reg.CR 0x00
  |> HWREG_assign Reg.LOCK 0
  |> ROM_GPIOPinWrite (GPIO_PIN_0 ||| GPIO_PIN_1) GPIO_PIN_0

/-- Lines 167 to 190: the branch taken when the new mode is not zero.  PC0-3
become GPIO inputs. -/
def gpioBranch (GPIO_LOCK_KEY : Nat) (c : Run) : Run :=
  c
  |> HWREG_assign Reg.LOCK GPIO_LOCK_KEY
  |> HWREG_assign Reg.CR 0x01
  |> HWREG_and Reg.AFSEL 0xfe
  |> HWREG_assign Reg.LOCK GPIO_LOCK_KEY
  |> HWREG_assign Reg.CR 0x02
  |> HWREG_and Reg.AFSEL 0xfd
  |> HWREG_assign Reg.LOCK GPIO_LOCK_KEY
  |> HWREG_assign Reg.CR 0x04
  |> HWREG_and Reg.AFSEL 0xfb
  |> HWREG_assign Reg.LOCK GPIO_LOCK_KEY
  |> HWREG_assign Reg.CR 0x08
  |> HWREG_and Reg.AFSEL 0xf7
  |> HWREG_assign Reg.LOCK GPIO_LOCK_KEY
  |> HWREG_assign Reg.CR 0x00
  |> HWREG_assign Reg.LOCK 0
  |> ROM_GPIOPinTypeGPIOInput (GPIO_PIN_0 ||| GPIO_PIN_1 ||| GPIO_PIN_2 ||| GPIO_PIN_3)
  |> ROM_GPIOPinWrite (GPIO_PIN_0 ||| GPIO_PIN_1) GPIO_PIN_1

/-- Lines 130 to 191, the body of the `if` of `SysTickIntHandler`: one mode
toggle.  `g_ui32Mode ^= 1`, then the branch selected by `g_ui32Mode == 0`.
The trace starts empty. -/
def toggle (GPIO_LOCK_KEY : Nat) (s : State) : Run :=
  let s1 : State := { s with g_ui32Mode := U32 (s.g_ui32Mode ^^^ 1) }
  if s1.g_ui32Mode = 0 then
    jtagBranch GPIO_LOCK_KEY (s1, [])
  else
    gpioBranch GPIO_LOCK_KEY (s1, [])

/-- Lines 110 to 193.  `poll` is what `ButtonsPoll(&ui8ButtonsChanged, 0)`
delivers on this tick: the returned button state and the changed flags it
writes through its pointer argument; both land in `uint8_t` variables. -/
def SysTickIntHandler (GPIO_LOCK_KEY USR_SW1 : Nat) (poll : Nat × Nat) (s : State) : Run :=
  let ui8Buttons := poll.1 % 256
  let ui8ButtonsChanged := poll.2 % 256
  if BUTTON_PRESSED USR_SW1 ui8Buttons ui8ButtonsChanged then
    toggle GPIO_LOCK_KEY s
  else
    (s, [])

/-! ## Runs over several ticks and observations on states and traces -/

/-- Two consecutive toggles; the state they leave. -/
def toggleTwice (GPIO_LOCK_KEY : Nat) (s : State) : State :=
  (toggle GPIO_LOCK_KEY (toggle GPIO_LOCK_KEY s).1).1

/-- The handler run once per tick over a sequence of polls, oldest first; the
state after the last tick. -/
def runTicks (GPIO_LOCK_KEY USR_SW1 : Nat) : List (Nat × Nat) → State → State
  | [], s => s
  | t :: ts, s => runTicks GPIO_LOCK_KEY USR_SW1 ts (SysTickIntHandler GPIO_LOCK_KEY USR_SW1 t s).1

/-- The concatenated trace of the handler run once per tick over a sequence of
polls. -/
def traceTicks (GPIO_LOCK_KEY USR_SW1 : Nat) : List (Nat × Nat) → State → List Event
  | [], _ => []
  | t :: ts, s =>
    (SysTickIntHandler GPIO_LOCK_KEY USR_SW1 t s).2 ++
      traceTicks GPIO_LOCK_KEY USR_SW1 ts (SysTickIntHandler GPIO_LOCK_KEY USR_SW1 t s).1

/-- Number of ticks of the sequence at which the handler changed `g_ui32Mode`. -/
def modeChanges (GPIO_LOCK_KEY USR_SW1 : Nat) : List (Nat × Nat) → State → Nat
  | [], _ => 0
  | t :: ts, s =>
    (if (SysTickIntHandler GPIO_LOCK_KEY USR_SW1 t s).1.g_ui32Mode = s.g_ui32Mode then 0 else 1) +
      modeChanges GPIO_LOCK_KEY USR_SW1 ts (SysTickIntHandler GPIO_LOCK_KEY USR_SW1 t s).1

/-- The poll of a tick reports the button pressed. -/
def isPressed (USR_SW1 : Nat) (poll : Nat × Nat) : Bool :=
  USR_SW1 &&& (poll.1 % 256) != 0

/-- The poll of a tick reports the button changed since the previous poll. -/
def isChanged (USR_SW1 : Nat) (poll : Nat × Nat) : Bool :=
  USR_SW1 &&& (poll.2 % 256) != 0

/-- The trace entry is the indicator update, a call of `ROM_GPIOPinWrite`. -/
def Event.isPinWrite : Event → Bool
  | Event.pinWrite _ _ => true
  | _ => false

/-- The trace entry is a read-modify-write of the alternate-function-select
register. -/
def Event.isAfselWrite : Event → Bool
  | Event.orStore Reg.AFSEL _ _ _ => true
  | Event.andStore Reg.AFSEL _ _ _ => true
  | _ => false

/-- The trace entry is the alternate-function-select write for pin `p`: the
`|=` whose mask is the bit of `p`, or the `&=` whose mask is every pin bit
except that of `p`. -/
def Event.isAfselWriteFor (p : Nat) : Event → Bool
  | Event.orStore Reg.AFSEL mask _ _ => decide (mask = 2 ^ p)
  | Event.andStore Reg.AFSEL mask _ _ => decide (mask = 255 - 2 ^ p)
  | _ => false

/-- The trace entry assigns the alternate-function-select register: a store or
a read-modify-write through `HWREG`, or the pin-type call, which sets the
alternate function of the pins it names to off. -/
def Event.assignsAfsel : Event → Bool
  | Event.store Reg.AFSEL _ => true
  | Event.orStore Reg.AFSEL _ _ _ => true
  | Event.andStore Reg.AFSEL _ _ _ => true
  | Event.pinTypeGPIOInput _ => true
  | _ => false

/-- The value a register write of the trace stored; none for a ROM call. -/
def Event.stored : Event → Option Nat
  | Event.store _ v => some v
  | Event.orStore _ _ _ new => some new
  | Event.andStore _ _ _ new => some new
  | _ => none

/-- The indicator: the levels of PN0 and PN1, the two port N pins the handler
drives. -/
def indicator (s : State) : Nat := s.DATA_N &&& 3

/-- The LED on PN0, the pin the "turn on the LED" call of line 159 drives high. -/
def ledOn (s : State) : Bool := s.DATA_N.testBit 0

/-- The value argument of the `ROM_GPIOPinWrite` call of each branch, as a
function of the new mode (lines 159-160 and 189-190). -/
def indicatorOf (mode : Nat) : Nat :=
  if mode = 0 then GPIO_PIN_0 else GPIO_PIN_1

/-! ## Concrete inputs on which the theorems are instantiated -/

/-- The unlock key of the TM4C parts, the text LOCK in ASCII. -/
def sampleKey : Nat := 0x4C4F434B

/-- The button mask of the first user switch: bit 0 of the poll result. -/
def sampleSw1 : Nat := 1

/-- A state before any toggle: mode zero, port C locked with a nonzero lock
value and a nonzero commit mask, PC0-3 on their alternate function, LEDs off. -/
def resetState : State :=
  { g_ui32Mode := 0, LOCK := 1, CR := 240, AFSEL := 15, DIR := 0, DEN := 15, DATA_N := 0 }

/-- A state in GPIO mode in which other port C pins use their alternate
function and are outputs. -/
def gpioModeState : State :=
  { g_ui32Mode := 1, LOCK := 0, CR := 0, AFSEL := 48, DIR := 240, DEN := 255, DATA_N := 2 }

/-! ## Bit-level lemmas -/

theorem U32_eq (n : Nat) : U32 n = n % 2 ^ 32 := by
  simp only [U32]; norm_num

theorem U32_lt (n : Nat) : U32 n < 4294967296 := by
  simp only [U32]; omega

theorem U32_of_lt {n : Nat} (h : n < 4294967296) : U32 n = n := by
  simp only [U32]; omega

theorem U32_zero : U32 0 = 0 := by
  simp [U32]

theorem testBit_U32 (n i : Nat) : (U32 n).testBit i = (decide (i < 32) && n.testBit i) := by
  rw [U32_eq, Nat.testBit_mod_two_pow]

theorem testBit_mod256 (n i : Nat) : (n % 256).testBit i = (decide (i < 8) && n.testBit i) := by
  rw [show (256 : Nat) = 2 ^ 8 by norm_num, Nat.testBit_mod_two_pow]

theorem testBit_lit_high {m k i : Nat} (hm : m < 2 ^ k) (hi : k ≤ i) : m.testBit i = false :=
  Nat.testBit_lt_two_pow (lt_of_lt_of_le hm (Nat.pow_le_pow_right (by norm_num) hi))

theorem testBit_1 (i : Nat) : Nat.testBit 1 i = decide (i = 0) := by
  by_cases h : i < 1
  · interval_cases i; decide
  · rw [testBit_lit_high (by norm_num : 1 < 2 ^ 1) (not_lt.mp h)]; simp; omega

theorem testBit_2 (i : Nat) : Nat.testBit 2 i = decide (i = 1) := by
  by_cases h : i < 2
  · interval_cases i <;> decide
  · rw [testBit_lit_high (by norm_num : 2 < 2 ^ 2) (not_lt.mp h)]; simp; omega

theorem testBit_3 (i : Nat) : Nat.testBit 3 i = decide (i < 2) := by
  by_cases h : i < 2
  · interval_cases i <;> decide
  · rw [testBit_lit_high (by norm_num : 3 < 2 ^ 2) (not_lt.mp h)]; simp; omega

theorem testBit_4 (i : Nat) : Nat.testBit 4 i = decide (i = 2) := by
  by_cases h : i < 3
  · interval_cases i <;> decide
  · rw [testBit_lit_high (by norm_num : 4 < 2 ^ 3) (not_lt.mp h)]; simp; omega

theorem testBit_8 (i : Nat) : Nat.testBit 8 i = decide (i = 3) := by
  by_cases h : i < 4
  · interval_cases i <;> decide
  · rw [testBit_lit_high (by norm_num : 8 < 2 ^ 4) (not_lt.mp h)]; simp; omega

theorem testBit_15 (i : Nat) : Nat.testBit 15 i = decide (i < 4) := by
  by_cases h : i < 4
  · interval_cases i <;> decide
  · rw [testBit_lit_high (by norm_num : 15 < 2 ^ 4) (not_lt.mp h)]; simp; omega

theorem testBit_240 (i : Nat) : Nat.testBit 240 i = decide (4 ≤ i ∧ i < 8) := by
  by_cases h : i < 8
  · interval_cases i <;> decide
  · rw [testBit_lit_high (by norm_num : 240 < 2 ^ 8) (not_lt.mp h)]; simp; omega

theorem testBit_252 (i : Nat) : Nat.testBit 252 i = decide (2 ≤ i ∧ i < 8) := by
  by_cases h : i < 8
  · interval_cases i <;> decide
  · rw [testBit_lit_high (by norm_num : 252 < 2 ^ 8) (not_lt.mp h)]; simp; omega

theorem testBit_254 (i : Nat) : Nat.testBit 254 i = decide (i ≠ 0 ∧ i < 8) := by
  by_cases h : i < 8
  · interval_cases i <;> decide
  · rw [testBit_lit_high (by norm_num : 254 < 2 ^ 8) (not_lt.mp h)]; simp; omega

theorem testBit_253 (i : Nat) : Nat.testBit 253 i = decide (i ≠ 1 ∧ i < 8) := by
  by_cases h : i < 8
  · interval_cases i <;> decide
  · rw [testBit_lit_high (by norm_num : 253 < 2 ^ 8) (not_lt.mp h)]; simp; omega

theorem testBit_251 (i : Nat) : Nat.testBit 251 i = decide (i ≠ 2 ∧ i < 8) := by
  by_cases h : i < 8
  · interval_cases i <;> decide
  · rw [testBit_lit_high (by norm_num : 251 < 2 ^ 8) (not_lt.mp h)]; simp; omega

theorem testBit_247 (i : Nat) : Nat.testBit 247 i = decide (i ≠ 3 ∧ i < 8) := by
  by_cases h : i < 8
  · interval_cases i <;> decide
  · rw [testBit_lit_high (by norm_num : 247 < 2 ^ 8) (not_lt.mp h)]; simp; omega

theorem testBit_4294967280 (i : Nat) :
    Nat.testBit 4294967280 i = decide (4 ≤ i ∧ i < 32) := by
  by_cases h : i < 32
  · interval_cases i <;> decide
  · rw [testBit_lit_high (by norm_num : 4294967280 < 2 ^ 32) (not_lt.mp h)]; simp; omega

/-! ## Closed forms of one toggle -/

/-- The alternate-function-select value left by the four `|=` of the JTAG branch. -/
theorem or_chain (x : Nat) :
    U32 (U32 (U32 (U32 (x ||| 1) ||| 2) ||| 4) ||| 8) = U32 (x ||| 15) := by
  apply Nat.eq_of_testBit_eq
  intro i
  simp only [testBit_U32, Nat.testBit_or, testBit_1, testBit_2, testBit_4, testBit_8, testBit_15]
  cases x.testBit i <;> rw [Bool.eq_iff_iff] <;> simp <;> try omega

/-- The alternate-function-select value left by the four `&=` of the GPIO branch. -/
theorem and_chain (x : Nat) :
    U32 (U32 (U32 (U32 (x &&& 254) &&& 253) &&& 251) &&& 247) = x &&& 240 := by
  apply Nat.eq_of_testBit_eq
  intro i
  simp only [testBit_U32, Nat.testBit_and, testBit_254, testBit_253, testBit_251, testBit_247,
    testBit_240]
  cases x.testBit i <;> rw [Bool.eq_iff_iff] <;> simp
  omega

/-- The pin-type call after the four `&=` leaves the register value as it is. -/
theorem and_chain_pinType (x : Nat) : U32 ((x &&& 240) &&& 4294967280) = x &&& 240 := by
  apply Nat.eq_of_testBit_eq
  intro i
  simp only [testBit_U32, Nat.testBit_and, testBit_240, testBit_4294967280]
  cases x.testBit i <;> rw [Bool.eq_iff_iff] <;> simp
  omega

theorem toggle_state_jtag (key : Nat) (s : State) (h : U32 (s.g_ui32Mode ^^^ 1) = 0) :
    (toggle key s).1 =
      { g_ui32Mode := 0
        LOCK := 0
        CR := 0
        AFSEL := U32 (s.AFSEL ||| 15)
        DIR := s.DIR
        DEN := s.DEN
        DATA_N := ((s.DATA_N % 256) &&& 252) ||| 1 } := by
  simp only [toggle, h, if_true, jtagBranch, HWREG_assign, HWREG_or, ROM_GPIOPinWrite,
    State.store, State.load, GPIO_PIN_0, GPIO_PIN_1, or_chain, U32_zero]
  rfl

theorem toggle_state_gpio (key : Nat) (s : State) (h : U32 (s.g_ui32Mode ^^^ 1) ≠ 0) :
    (toggle key s).1 =
      { g_ui32Mode := U32 (s.g_ui32Mode ^^^ 1)
        LOCK := 0
        CR := 0
        AFSEL := s.AFSEL &&& 240
        DIR := U32 (s.DIR &&& 4294967280)
        DEN := U32 (s.DEN ||| 15)
        DATA_N := ((s.DATA_N % 256) &&& 252) ||| 2 } := by
  simp only [toggle, h, if_false, gpioBranch, HWREG_assign, HWREG_and, ROM_GPIOPinWrite,
    ROM_GPIOPinTypeGPIOInput, State.store, State.load, GPIO_PIN_0, GPIO_PIN_1, GPIO_PIN_2,
    GPIO_PIN_3, and_chain, U32_zero]
  have e1 : (4294967295 : Nat) ^^^ ((1 ||| 2 ||| 4 ||| 8) % 256) = 4294967280 := by decide
  have e2 : ((1 : Nat) ||| 2 ||| 4 ||| 8) % 256 = 15 := by decide
  have e3 : (255 : Nat) ^^^ ((1 ||| 2) % 256) = 252 := by decide
  have e4 : (2 : Nat) % 256 &&& (1 ||| 2) % 256 = 2 := by decide
  have e5 : (4294967295 : Nat) ^^^ 15 = 4294967280 := by decide
  simp only [e1, e2, e3, e4, e5, and_chain_pinType]

theorem xor_one_ne (m : Nat) : U32 (m ^^^ 1) ≠ m := by
  intro h
  have h0 := congrArg (fun n => Nat.testBit n 0) h
  simp only [testBit_U32, Nat.testBit_xor, testBit_1] at h0
  cases hm : m.testBit 0 <;> simp [hm] at h0

theorem xor_one_twice (m : Nat) : U32 (U32 (m ^^^ 1) ^^^ 1) = U32 m := by
  apply Nat.eq_of_testBit_eq
  intro i
  simp only [testBit_U32, Nat.testBit_xor, testBit_1]
  cases m.testBit i <;> rw [Bool.eq_iff_iff] <;> simp <;> try omega

theorem toggle_mode (key : Nat) (s : State) :
    (toggle key s).1.g_ui32Mode = U32 (s.g_ui32Mode ^^^ 1) := by
  by_cases h : U32 (s.g_ui32Mode ^^^ 1) = 0
  · rw [toggle_state_jtag key s h, h]
  · rw [toggle_state_gpio key s h]

theorem U32_lits : U32 1 = 1 ∧ U32 2 = 2 ∧ U32 4 = 4 ∧ U32 8 = 8 := by decide

theorem toggle_trace_jtag (key : Nat) (s : State) (h : U32 (s.g_ui32Mode ^^^ 1) = 0) :
    (toggle key s).2 =
      [ Event.store Reg.LOCK (U32 key), Event.store Reg.CR 1,
        Event.orStore Reg.AFSEL 1 s.AFSEL (U32 (s.AFSEL ||| 1)),
        Event.store Reg.LOCK (U32 key), Event.store Reg.CR 2,
        Event.orStore Reg.AFSEL 2 (U32 (s.AFSEL ||| 1)) (U32 (U32 (s.AFSEL ||| 1) ||| 2)),
        Event.store Reg.LOCK (U32 key), Event.store Reg.CR 4,
        Event.orStore Reg.AFSEL 4 (U32 (U32 (s.AFSEL ||| 1) ||| 2))
          (U32 (U32 (U32 (s.AFSEL ||| 1) ||| 2) ||| 4)),
        Event.store Reg.LOCK (U32 key), Event.store Reg.CR 8,
        Event.orStore Reg.AFSEL 8 (U32 (U32 (U32 (s.AFSEL ||| 1) ||| 2) ||| 4))
          (U32 (U32 (U32 (U32 (s.AFSEL ||| 1) ||| 2) ||| 4) ||| 8)),
        Event.store Reg.LOCK (U32 key), Event.store Reg.CR 0,
        Event.store Reg.LOCK 0,
        Event.pinWrite 3 1 ] := by
  simp only [toggle, h, if_true, jtagBranch, HWREG_assign, HWREG_or, ROM_GPIOPinWrite,
    State.store, State.load, GPIO_PIN_0, GPIO_PIN_1, U32_zero, U32_lits, List.nil_append,
    List.cons_append]
  rfl

theorem toggle_trace_gpio (key : Nat) (s : State) (h : U32 (s.g_ui32Mode ^^^ 1) ≠ 0) :
    (toggle key s).2 =
      [ Event.store Reg.LOCK (U32 key), Event.store Reg.CR 1,
        Event.andStore Reg.AFSEL 254 s.AFSEL (U32 (s.AFSEL &&& 254)),
        Event.store Reg.LOCK (U32 key), Event.store Reg.CR 2,
        Event.andStore Reg.AFSEL 253 (U32 (s.AFSEL &&& 254)) (U32 (U32 (s.AFSEL &&& 254) &&& 253)),
        Event.store Reg.LOCK (U32 key), Event.store Reg.CR 4,
        Event.andStore Reg.AFSEL 251 (U32 (U32 (s.AFSEL &&& 254) &&& 253))
          (U32 (U32 (U32 (s.AFSEL &&& 254) &&& 253) &&& 251)),
        Event.store Reg.LOCK (U32 key), Event.store Reg.CR 8,
        Event.andStore Reg.AFSEL 247 (U32 (U32 (U32 (s.AFSEL &&& 254) &&& 253) &&& 251))
          (U32 (U32 (U32 (U32 (s.AFSEL &&& 254) &&& 253) &&& 251) &&& 247)),
        Event.store Reg.LOCK (U32 key), Event.store Reg.CR 0,
        Event.store Reg.LOCK 0,
        Event.pinTypeGPIOInput 15,
        Event.pinWrite 3 2 ] := by
  simp only [toggle, h, if_false, gpioBranch, HWREG_assign, HWREG_and, ROM_GPIOPinWrite,
    ROM_GPIOPinTypeGPIOInput, State.store, State.load, GPIO_PIN_0, GPIO_PIN_1, GPIO_PIN_2,
    GPIO_PIN_3, U32_zero, U32_lits, List.nil_append, List.cons_append]
  rfl

theorem getElem?_some_lt {α : Type} {l : List α} {k : Nat} {e : α} (h : l[k]? = some e) :
    k < l.length := by
  by_contra hc
  rw [List.getElem?_eq_none (not_lt.mp hc)] at h
  exact absurd h (by simp)

theorem toggle_trace_idx_afsel (key : Nat) (s : State) (p k : Nat) (e : Event) (hp : p < 4)
    (hk : (toggle key s).2[k]? = some e) (he : e.isAfselWriteFor p = true) : k = 3 * p + 2 := by
  by_cases h : U32 (s.g_ui32Mode ^^^ 1) = 0
  · rw [toggle_trace_jtag key s h] at hk
    have hlt := getElem?_some_lt hk
    simp only [List.length_cons, List.length_nil] at hlt
    interval_cases p <;> interval_cases k <;> simp at hk <;> subst hk <;>
      simp [Event.isAfselWriteFor] at he ⊢
  · rw [toggle_trace_gpio key s h] at hk
    have hlt := getElem?_some_lt hk
    simp only [List.length_cons, List.length_nil] at hlt
    interval_cases p <;> interval_cases k <;> simp at hk <;> subst hk <;>
      simp [Event.isAfselWriteFor] at he ⊢

theorem toggle_trace_idx_cr (key : Nat) (s : State) (p j : Nat) (hp : p < 4)
    (hj : (toggle key s).2[j]? = some (Event.store Reg.CR (2 ^ p))) : j = 3 * p + 1 := by
  by_cases h : U32 (s.g_ui32Mode ^^^ 1) = 0
  · rw [toggle_trace_jtag key s h] at hj
    have hlt := getElem?_some_lt hj
    simp only [List.length_cons, List.length_nil] at hlt
    interval_cases p <;> interval_cases j <;> simp at hj ⊢
  · rw [toggle_trace_gpio key s h] at hj
    have hlt := getElem?_some_lt hj
    simp only [List.length_cons, List.length_nil] at hlt
    interval_cases p <;> interval_cases j <;> simp at hj ⊢

theorem toggle_trace_at_lock (key : Nat) (s : State) (p : Nat) (hp : p < 5) :
    (toggle key s).2[3 * p]? = some (Event.store Reg.LOCK (U32 key)) := by
  by_cases h : U32 (s.g_ui32Mode ^^^ 1) = 0
  · rw [toggle_trace_jtag key s h]
    interval_cases p <;> simp
  · rw [toggle_trace_gpio key s h]
    interval_cases p <;> simp

theorem toggle_trace_at_cr (key : Nat) (s : State) (p : Nat) (hp : p < 4) :
    (toggle key s).2[3 * p + 1]? = some (Event.store Reg.CR (2 ^ p)) := by
  by_cases h : U32 (s.g_ui32Mode ^^^ 1) = 0
  · rw [toggle_trace_jtag key s h]
    interval_cases p <;> simp
  · rw [toggle_trace_gpio key s h]
    interval_cases p <;> simp

theorem toggle_trace_at_afsel (key : Nat) (s : State) (p : Nat) (hp : p < 4) :
    ∃ e, (toggle key s).2[3 * p + 2]? = some e ∧ e.isAfselWriteFor p = true := by
  by_cases h : U32 (s.g_ui32Mode ^^^ 1) = 0
  · rw [toggle_trace_jtag key s h]
    interval_cases p <;> simp [Event.isAfselWriteFor]
  · rw [toggle_trace_gpio key s h]
    interval_cases p <;> simp [Event.isAfselWriteFor]

theorem toggle_trace_idx_lock (key : Nat) (s : State) (k v : Nat)
    (hk : (toggle key s).2[k]? = some (Event.store Reg.LOCK v)) : k ≤ 14 := by
  by_cases h : U32 (s.g_ui32Mode ^^^ 1) = 0
  · rw [toggle_trace_jtag key s h] at hk
    have hlt := getElem?_some_lt hk
    simp only [List.length_cons, List.length_nil] at hlt
    interval_cases k <;> simp at hk ⊢
  · rw [toggle_trace_gpio key s h] at hk
    have hlt := getElem?_some_lt hk
    simp only [List.length_cons, List.length_nil] at hlt
    interval_cases k <;> simp at hk ⊢

theorem toggle_trace_at_relock (key : Nat) (s : State) :
    (toggle key s).2[14]? = some (Event.store Reg.LOCK 0) := by
  by_cases h : U32 (s.g_ui32Mode ^^^ 1) = 0
  · rw [toggle_trace_jtag key s h]; simp
  · rw [toggle_trace_gpio key s h]; simp

theorem toggle_trace_idx_afsel_any (key : Nat) (s : State) (k : Nat) (e : Event)
    (hk : (toggle key s).2[k]? = some e) (he : e.isAfselWrite = true) :
    k % 3 = 2 ∧ k < 12 ∧ e.isAfselWriteFor (k / 3) = true := by
  by_cases h : U32 (s.g_ui32Mode ^^^ 1) = 0
  · rw [toggle_trace_jtag key s h] at hk
    have hlt := getElem?_some_lt hk
    simp only [List.length_cons, List.length_nil] at hlt
    interval_cases k <;> simp at hk <;> subst hk <;>
      simp [Event.isAfselWriteFor, Event.isAfselWrite] at he ⊢
  · rw [toggle_trace_gpio key s h] at hk
    have hlt := getElem?_some_lt hk
    simp only [List.length_cons, List.length_nil] at hlt
    interval_cases k <;> simp at hk <;> subst hk <;>
      simp [Event.isAfselWriteFor, Event.isAfselWrite] at he ⊢

/-! ## Field-wise description of one toggle -/

theorem toggle_LOCK (key : Nat) (s : State) : (toggle key s).1.LOCK = 0 := by
  by_cases h : U32 (s.g_ui32Mode ^^^ 1) = 0
  · rw [toggle_state_jtag key s h]
  · rw [toggle_state_gpio key s h]

theorem toggle_CR (key : Nat) (s : State) : (toggle key s).1.CR = 0 := by
  by_cases h : U32 (s.g_ui32Mode ^^^ 1) = 0
  · rw [toggle_state_jtag key s h]
  · rw [toggle_state_gpio key s h]

theorem toggle_AFSEL (key : Nat) (s : State) :
    (toggle key s).1.AFSEL =
      if U32 (s.g_ui32Mode ^^^ 1) = 0 then U32 (s.AFSEL ||| 15) else s.AFSEL &&& 240 := by
  by_cases h : U32 (s.g_ui32Mode ^^^ 1) = 0
  · rw [toggle_state_jtag key s h, if_pos h]
  · rw [toggle_state_gpio key s h, if_neg h]

theorem toggle_DIR (key : Nat) (s : State) :
    (toggle key s).1.DIR =
      if U32 (s.g_ui32Mode ^^^ 1) = 0 then s.DIR else U32 (s.DIR &&& 4294967280) := by
  by_cases h : U32 (s.g_ui32Mode ^^^ 1) = 0
  · rw [toggle_state_jtag key s h, if_pos h]
  · rw [toggle_state_gpio key s h, if_neg h]

theorem toggle_DEN (key : Nat) (s : State) :
    (toggle key s).1.DEN =
      if U32 (s.g_ui32Mode ^^^ 1) = 0 then s.DEN else U32 (s.DEN ||| 15) := by
  by_cases h : U32 (s.g_ui32Mode ^^^ 1) = 0
  · rw [toggle_state_jtag key s h, if_pos h]
  · rw [toggle_state_gpio key s h, if_neg h]

theorem toggle_DATA_N (key : Nat) (s : State) :
    (toggle key s).1.DATA_N =
      ((s.DATA_N % 256) &&& 252) ||| indicatorOf (U32 (s.g_ui32Mode ^^^ 1)) := by
  by_cases h : U32 (s.g_ui32Mode ^^^ 1) = 0
  · rw [toggle_state_jtag key s h, h]; rfl
  · rw [toggle_state_gpio key s h, indicatorOf, if_neg h]; rfl

theorem state_eq {s t : State} (h1 : s.g_ui32Mode = t.g_ui32Mode) (h2 : s.LOCK = t.LOCK)
    (h3 : s.CR = t.CR) (h4 : s.AFSEL = t.AFSEL) (h5 : s.DIR = t.DIR) (h6 : s.DEN = t.DEN)
    (h7 : s.DATA_N = t.DATA_N) : s = t := by
  cases s; cases t; simp_all

theorem U32_U32 (n : Nat) : U32 (U32 n) = U32 n := U32_of_lt (U32_lt n)

theorem xor_one_thrice (m : Nat) :
    U32 (U32 (U32 (m ^^^ 1) ^^^ 1) ^^^ 1) = U32 (m ^^^ 1) := by
  rw [xor_one_twice, U32_U32]

theorem afsel_gpio_after_jtag (x : Nat) : U32 (x ||| 15) &&& 240 = x &&& 240 := by
  apply Nat.eq_of_testBit_eq
  intro i
  simp only [testBit_U32, Nat.testBit_and, Nat.testBit_or, testBit_240, testBit_15]
  cases x.testBit i <;> rw [Bool.eq_iff_iff] <;> simp <;> omega

theorem afsel_gpio_twice (x : Nat) : x &&& 240 &&& 240 = x &&& 240 := by
  rw [Nat.and_assoc, Nat.and_self]

theorem dir_gpio_twice (x : Nat) :
    U32 (U32 (x &&& 4294967280) &&& 4294967280) = U32 (x &&& 4294967280) := by
  apply Nat.eq_of_testBit_eq
  intro i
  simp only [testBit_U32, Nat.testBit_and, testBit_4294967280]
  cases x.testBit i <;> rw [Bool.eq_iff_iff] <;> simp

theorem den_gpio_twice (x : Nat) : U32 (U32 (x ||| 15) ||| 15) = U32 (x ||| 15) := by
  apply Nat.eq_of_testBit_eq
  intro i
  simp only [testBit_U32, Nat.testBit_or, testBit_15]
  cases x.testBit i <;> rw [Bool.eq_iff_iff] <;> simp
  omega

theorem data_absorb (x a : Nat) (ha : a < 4) :
    (((x % 256) &&& 252) ||| a) % 256 &&& 252 = (x % 256) &&& 252 := by
  apply Nat.eq_of_testBit_eq
  intro i
  have hhigh : ∀ j : Nat, 2 ≤ j → a.testBit j = false := fun j hj =>
    testBit_lit_high (show a < 2 ^ 2 by omega) hj
  simp only [testBit_mod256, Nat.testBit_and, Nat.testBit_or, testBit_252]
  by_cases hi : 2 ≤ i
  · rw [hhigh i hi]
    cases x.testBit i <;> simp
  · have : ¬ (2 ≤ i ∧ i < 8) := fun hc => hi hc.1
    simp [this]

theorem indicatorOf_lt (m : Nat) : indicatorOf m < 4 := by
  unfold indicatorOf GPIO_PIN_0 GPIO_PIN_1
  split <;> omega

theorem or_bit (x p : Nat) (hp : p < 4) :
    (U32 (x ||| 2 ^ p)).testBit p = true ∧
      ∀ b : Nat, b < 8 → b ≠ p → (U32 (x ||| 2 ^ p)).testBit b = x.testBit b := by
  constructor
  · simp only [testBit_U32, Nat.testBit_or, Nat.testBit_two_pow]
    simp
    omega
  · intro b hb hne
    simp only [testBit_U32, Nat.testBit_or, Nat.testBit_two_pow]
    cases x.testBit b <;> simp <;> omega

theorem or_bit_all (x p : Nat) (hp : p < 4) (hx : x < 256) (b : Nat) (hne : b ≠ p) :
    (U32 (x ||| 2 ^ p)).testBit b = x.testBit b := by
  by_cases hb : b < 8
  · exact (or_bit x p hp).2 b hb hne
  · rw [testBit_lit_high (show x < 2 ^ 8 by omega) (not_lt.mp hb)]
    simp only [testBit_U32, Nat.testBit_or, Nat.testBit_two_pow,
      testBit_lit_high (show x < 2 ^ 8 by omega) (not_lt.mp hb)]
    simp
    omega

theorem and_bit_all (x p : Nat) (hx : x < 256) (b : Nat) (hb : 8 ≤ b) :
    (U32 (x &&& (255 - 2 ^ p))).testBit b = x.testBit b := by
  simp only [testBit_U32, Nat.testBit_and, testBit_lit_high (show x < 2 ^ 8 by omega) hb]
  simp

theorem and_bit (x p : Nat) (hp : p < 4) :
    (U32 (x &&& (255 - 2 ^ p))).testBit p = false ∧
      ∀ b : Nat, b < 8 → b ≠ p → (U32 (x &&& (255 - 2 ^ p))).testBit b = x.testBit b := by
  interval_cases p
  · rw [show 255 - 2 ^ 0 = 254 by norm_num]
    constructor
    · simp only [testBit_U32, Nat.testBit_and, testBit_254]; simp
    · intro b hb hne
      simp only [testBit_U32, Nat.testBit_and, testBit_254]
      cases x.testBit b <;> simp
      omega
  · rw [show 255 - 2 ^ 1 = 253 by norm_num]
    constructor
    · simp only [testBit_U32, Nat.testBit_and, testBit_253]; simp
    · intro b hb hne
      simp only [testBit_U32, Nat.testBit_and, testBit_253]
      cases x.testBit b <;> simp
      omega
  · rw [show 255 - 2 ^ 2 = 251 by norm_num]
    constructor
    · simp only [testBit_U32, Nat.testBit_and, testBit_251]; simp
    · intro b hb hne
      simp only [testBit_U32, Nat.testBit_and, testBit_251]
      cases x.testBit b <;> simp
      omega
  · rw [show 255 - 2 ^ 3 = 247 by norm_num]
    constructor
    · simp only [testBit_U32, Nat.testBit_and, testBit_247]; simp
    · intro b hb hne
      simp only [testBit_U32, Nat.testBit_and, testBit_247]
      cases x.testBit b <;> simp
      omega

theorem toggle_trace_cr_afsel_jtag (key : Nat) (s : State) (h : U32 (s.g_ui32Mode ^^^ 1) = 0)
    (i v : Nat) (e : Event) (h1 : (toggle key s).2[i]? = some (Event.store Reg.CR v))
    (h2 : (toggle key s).2[i + 1]? = some e) (he : e.isAfselWrite = true) :
    ∃ p : Nat, p < 4 ∧ i = 3 * p + 1 ∧ v = 2 ^ p ∧
      ∃ old : Nat, e = Event.orStore Reg.AFSEL (2 ^ p) old (U32 (old ||| 2 ^ p)) := by
  rw [toggle_trace_jtag key s h] at h1 h2
  have hlt := getElem?_some_lt h1
  simp only [List.length_cons, List.length_nil] at hlt
  interval_cases i <;> simp at h1 h2 <;> subst h1 <;> subst h2 <;>
    simp [Event.isAfselWrite] at he
  · exact ⟨0, by norm_num, rfl, rfl, _, rfl⟩
  · exact ⟨1, by norm_num, rfl, rfl, _, rfl⟩
  · exact ⟨2, by norm_num, rfl, rfl, _, rfl⟩
  · exact ⟨3, by norm_num, rfl, rfl, _, rfl⟩

theorem toggle_trace_cr_afsel_gpio (key : Nat) (s : State) (h : U32 (s.g_ui32Mode ^^^ 1) ≠ 0)
    (i v : Nat) (e : Event) (h1 : (toggle key s).2[i]? = some (Event.store Reg.CR v))
    (h2 : (toggle key s).2[i + 1]? = some e) (he : e.isAfselWrite = true) :
    ∃ p : Nat, p < 4 ∧ i = 3 * p + 1 ∧ v = 2 ^ p ∧
      ∃ old : Nat, e = Event.andStore Reg.AFSEL (255 - 2 ^ p) old (U32 (old &&& (255 - 2 ^ p))) := by
  rw [toggle_trace_gpio key s h] at h1 h2
  have hlt := getElem?_some_lt h1
  simp only [List.length_cons, List.length_nil] at hlt
  interval_cases i <;> simp at h1 h2 <;> subst h1 <;> subst h2 <;>
    simp [Event.isAfselWrite] at he
  · exact ⟨0, by norm_num, rfl, rfl, _, rfl⟩
  · exact ⟨1, by norm_num, rfl, rfl, _, rfl⟩
  · exact ⟨2, by norm_num, rfl, rfl, _, rfl⟩
  · exact ⟨3, by norm_num, rfl, rfl, _, rfl⟩

theorem toggle_trace_count_cr (key : Nat) (s : State) (p : Nat) (hp : p < 4) :
    (toggle key s).2.count (Event.store Reg.CR (2 ^ p)) = 1 := by
  by_cases h : U32 (s.g_ui32Mode ^^^ 1) = 0
  · rw [toggle_trace_jtag key s h]
    interval_cases p <;> simp [List.count_cons]
  · rw [toggle_trace_gpio key s h]
    interval_cases p <;> simp [List.count_cons]

theorem isAfselWrite_of_for (p : Nat) (e : Event) (h : e.isAfselWriteFor p = true) :
    e.isAfselWrite = true := by
  cases e with
  | store r v => simp [Event.isAfselWriteFor] at h
  | orStore r m o n => cases r <;> simp [Event.isAfselWriteFor, Event.isAfselWrite] at h ⊢
  | andStore r m o n => cases r <;> simp [Event.isAfselWriteFor, Event.isAfselWrite] at h ⊢
  | pinTypeGPIOInput pins => simp [Event.isAfselWriteFor] at h
  | pinWrite pins val => simp [Event.isAfselWriteFor] at h

theorem toggle_trace_last_afsel (key : Nat) (s : State) :
    ∃ e : Event, (toggle key s).2[11]? = some e ∧ e.isAfselWriteFor 3 = true ∧
      e.stored = some (toggle key s).1.AFSEL := by
  by_cases h : U32 (s.g_ui32Mode ^^^ 1) = 0
  · rw [toggle_trace_jtag key s h, toggle_state_jtag key s h]
    simp [Event.isAfselWriteFor, Event.stored, or_chain]
  · rw [toggle_trace_gpio key s h, toggle_state_gpio key s h]
    simp [Event.isAfselWriteFor, Event.stored, and_chain]

theorem toggle_trace_assigns_after (key : Nat) (s : State) (k : Nat) (e : Event)
    (hlt : 14 < k) (hk : (toggle key s).2[k]? = some e) (he : e.assignsAfsel = true) :
    (toggle key s).1.g_ui32Mode ≠ 0 ∧ e = Event.pinTypeGPIOInput 15 := by
  by_cases h : U32 (s.g_ui32Mode ^^^ 1) = 0
  · rw [toggle_trace_jtag key s h] at hk
    have hlen := getElem?_some_lt hk
    simp only [List.length_cons, List.length_nil] at hlen
    interval_cases k
    simp at hk
    subst hk
    simp [Event.assignsAfsel] at he
  · refine ⟨by rw [toggle_mode]; exact h, ?_⟩
    rw [toggle_trace_gpio key s h] at hk
    have hlen := getElem?_some_lt hk
    simp only [List.length_cons, List.length_nil] at hlen
    interval_cases k <;> simp at hk <;> subst hk <;> simp [Event.assignsAfsel] at he ⊢

theorem toggle_trace_pinType (key : Nat) (s : State) (h : (toggle key s).1.g_ui32Mode ≠ 0) :
    (toggle key s).2[15]? = some (Event.pinTypeGPIOInput 15) := by
  rw [toggle_mode] at h
  rw [toggle_trace_gpio key s h]
  simp

/-! ## Two consecutive toggles, the indicator, runs over ticks -/

theorem toggleTwice_mode (key : Nat) (s : State) :
    (toggleTwice key s).g_ui32Mode = U32 s.g_ui32Mode := by
  unfold toggleTwice
  rw [toggle_mode, toggle_mode, xor_one_twice]

theorem toggleTwice_idem (key : Nat) (s : State) :
    toggleTwice key (toggleTwice key s) = toggleTwice key s := by
  unfold toggleTwice
  have h01 : ¬ (U32 (0 ^^^ 1) = 0) := by decide
  apply state_eq
  · simp only [toggle_mode, xor_one_thrice]
  · simp only [toggle_LOCK]
  · simp only [toggle_CR]
  · simp only [toggle_AFSEL, toggle_mode, xor_one_thrice]
    by_cases h1 : U32 (s.g_ui32Mode ^^^ 1) = 0
    · simp only [h1, h01, if_true, if_false, afsel_gpio_after_jtag,
        afsel_gpio_twice]
    · by_cases h2 : U32 (U32 (s.g_ui32Mode ^^^ 1) ^^^ 1) = 0
      · simp only [h1, h2, if_true, if_false, afsel_gpio_after_jtag, afsel_gpio_twice]
      · simp only [h1, h2, if_false, afsel_gpio_twice]
  · simp only [toggle_DIR, toggle_mode, xor_one_thrice]
    by_cases h1 : U32 (s.g_ui32Mode ^^^ 1) = 0
    · simp only [h1, h01, if_true, if_false, dir_gpio_twice]
    · by_cases h2 : U32 (U32 (s.g_ui32Mode ^^^ 1) ^^^ 1) = 0
      · simp only [h1, h2, if_true, if_false, dir_gpio_twice]
      · simp only [h1, h2, if_false, dir_gpio_twice]
  · simp only [toggle_DEN, toggle_mode, xor_one_thrice]
    by_cases h1 : U32 (s.g_ui32Mode ^^^ 1) = 0
    · simp only [h1, h01, if_true, if_false, den_gpio_twice]
    · by_cases h2 : U32 (U32 (s.g_ui32Mode ^^^ 1) ^^^ 1) = 0
      · simp only [h1, h2, if_true, if_false, den_gpio_twice]
      · simp only [h1, h2, if_false, den_gpio_twice]
  · simp only [toggle_DATA_N, toggle_mode, xor_one_thrice, data_absorb _ _ (indicatorOf_lt _)]

theorem indicator_after (x m : Nat) :
    (((x % 256) &&& 252) ||| indicatorOf m) &&& 3 = indicatorOf m := by
  apply Nat.eq_of_testBit_eq
  intro i
  have hhigh : ∀ j : Nat, 2 ≤ j → (indicatorOf m).testBit j = false := fun j hj =>
    testBit_lit_high (show indicatorOf m < 2 ^ 2 from indicatorOf_lt m) hj
  simp only [testBit_mod256, Nat.testBit_and, Nat.testBit_or, testBit_252, testBit_3]
  by_cases hi : 2 ≤ i
  · have : ¬ (i < 2) := by omega
    rw [hhigh i hi]
    simp [this]
  · have h1 : ¬ (2 ≤ i ∧ i < 8) := fun hc => hi hc.1
    have h2 : i < 2 := by omega
    simp [h1, h2]

theorem toggle_indicator_value (key : Nat) (s : State) :
    indicator (toggle key s).1 = indicatorOf (toggle key s).1.g_ui32Mode := by
  unfold indicator
  rw [toggle_DATA_N, toggle_mode, indicator_after]

theorem toggle_ledOn (key : Nat) (s : State) :
    ledOn (toggle key s).1 = decide ((toggle key s).1.g_ui32Mode = 0) := by
  unfold ledOn
  rw [toggle_DATA_N, toggle_mode]
  simp only [Nat.testBit_or, Nat.testBit_and, testBit_mod256, testBit_252]
  by_cases h : U32 (s.g_ui32Mode ^^^ 1) = 0
  · simp [h, indicatorOf, GPIO_PIN_0]
  · simp [h, indicatorOf, GPIO_PIN_1]

theorem toggle_trace_last (key : Nat) (s : State) :
    (toggle key s).2.getLast? =
      some (Event.pinWrite 3 (indicatorOf (toggle key s).1.g_ui32Mode)) := by
  rw [toggle_mode]
  by_cases h : U32 (s.g_ui32Mode ^^^ 1) = 0
  · rw [toggle_trace_jtag key s h, h]
    simp [indicatorOf, GPIO_PIN_0]
  · rw [toggle_trace_gpio key s h]
    simp [indicatorOf, GPIO_PIN_1, h]

theorem handler_cases (key sw1 : Nat) (poll : Nat × Nat) (s : State) :
    SysTickIntHandler key sw1 poll s =
      if (isPressed sw1 poll && isChanged sw1 poll) = true then toggle key s else (s, []) := by
  unfold SysTickIntHandler BUTTON_PRESSED isPressed isChanged
  simp only [Bool.and_comm]

theorem toggle_mode_lt_two (key : Nat) (s : State) (h : s.g_ui32Mode < 2) :
    (toggle key s).1.g_ui32Mode = (s.g_ui32Mode + 1) % 2 := by
  rw [toggle_mode]
  have hm : s.g_ui32Mode = 0 ∨ s.g_ui32Mode = 1 := by omega
  rcases hm with hm | hm <;> rw [hm] <;> decide

theorem runTicks_mode (key sw1 : Nat) (ticks : List (Nat × Nat)) :
    ∀ s : State, s.g_ui32Mode < 2 →
      (∀ t ∈ ticks, isPressed sw1 t = true ∧ isChanged sw1 t = true) →
      (runTicks key sw1 ticks s).g_ui32Mode = (s.g_ui32Mode + ticks.length) % 2 := by
  induction ticks with
  | nil =>
    intro s hs _
    simp only [runTicks, List.length_nil, Nat.add_zero]
    omega
  | cons t ts ih =>
    intro s hs hall
    have ht := hall t (List.mem_cons_self t ts)
    have hstep : SysTickIntHandler key sw1 t s = toggle key s := by
      rw [handler_cases]; simp [ht.1, ht.2]
    have hmode := toggle_mode_lt_two key s hs
    simp only [runTicks, hstep, List.length_cons]
    rw [ih (toggle key s).1 (by rw [hmode]; omega)
      (fun u hu => hall u (List.mem_cons_of_mem t hu)), hmode]
    omega

theorem toggle_trace_count_pinWrite (key : Nat) (s : State) :
    (toggle key s).2.countP Event.isPinWrite = 1 := by
  by_cases h : U32 (s.g_ui32Mode ^^^ 1) = 0
  · rw [toggle_trace_jtag key s h]
    simp [List.countP_cons, Event.isPinWrite]
  · rw [toggle_trace_gpio key s h]
    simp [List.countP_cons, Event.isPinWrite]

theorem modeChanges_eq (key sw1 : Nat) (ticks : List (Nat × Nat)) :
    ∀ s : State, modeChanges key sw1 ticks s =
      ticks.countP (fun t => isPressed sw1 t && isChanged sw1 t) := by
  induction ticks with
  | nil => intro s; rfl
  | cons t ts ih =>
    intro s
    simp only [modeChanges, List.countP_cons, ih]
    rw [handler_cases]
    by_cases ht : (isPressed sw1 t && isChanged sw1 t) = true
    · simp only [ht, if_true]
      rw [toggle_mode, if_neg (xor_one_ne _)]
      omega
    · simp only [ht, if_false, if_true]
      simp

theorem traceTicks_count (key sw1 : Nat) (ticks : List (Nat × Nat)) :
    ∀ s : State, (traceTicks key sw1 ticks s).countP Event.isPinWrite =
      ticks.countP (fun t => isPressed sw1 t && isChanged sw1 t) := by
  induction ticks with
  | nil => intro s; rfl
  | cons t ts ih =>
    intro s
    simp only [traceTicks, List.countP_cons, List.countP_append, ih]
    rw [handler_cases]
    by_cases ht : (isPressed sw1 t && isChanged sw1 t) = true
    · simp only [ht, if_true, toggle_trace_count_pinWrite]
      omega
    · simp only [ht, if_false]
      simp

theorem toggle_trace_afsel_shape (key : Nat) (s : State) (k : Nat) (e : Event)
    (hk : (toggle key s).2[k]? = some e) (he : e.isAfselWrite = true) :
    ∃ p : Nat, p < 4 ∧ ∃ old : Nat,
      e = Event.orStore Reg.AFSEL (2 ^ p) old (U32 (old ||| 2 ^ p)) ∨
      e = Event.andStore Reg.AFSEL (255 - 2 ^ p) old (U32 (old &&& (255 - 2 ^ p))) := by
  by_cases h : U32 (s.g_ui32Mode ^^^ 1) = 0
  · rw [toggle_trace_jtag key s h] at hk
    have hlt := getElem?_some_lt hk
    simp only [List.length_cons, List.length_nil] at hlt
    interval_cases k <;> simp at hk <;> subst hk <;> simp [Event.isAfselWrite] at he
    · exact ⟨0, by norm_num, _, Or.inl rfl⟩
    · exact ⟨1, by norm_num, _, Or.inl rfl⟩
    · exact ⟨2, by norm_num, _, Or.inl rfl⟩
    · exact ⟨3, by norm_num, _, Or.inl rfl⟩
  · rw [toggle_trace_gpio key s h] at hk
    have hlt := getElem?_some_lt hk
    simp only [List.length_cons, List.length_nil] at hlt
    interval_cases k <;> simp at hk <;> subst hk <;> simp [Event.isAfselWrite] at he
    · exact ⟨0, by norm_num, _, Or.inr rfl⟩
    · exact ⟨1, by norm_num, _, Or.inr rfl⟩
    · exact ⟨2, by norm_num, _, Or.inr rfl⟩
    · exact ⟨3, by norm_num, _, Or.inr rfl⟩

/-! ## The properties -/

/-- C1: starting from a boot state (`g_ui32Mode = 0`), after `K` ticks that each
report the button pressed and changed, the mode is 0 (Debug) when `K` is even
and 1 (GPIO) when `K` is odd. -/
theorem mode_parity (key sw1 K : Nat) (ticks : List (Nat × Nat)) (s : State)
    (hboot : s.g_ui32Mode = 0) (hlen : ticks.length = K)
    (hall : ∀ t ∈ ticks, isPressed sw1 t = true ∧ isChanged sw1 t = true) :
    (runTicks key sw1 ticks s).g_ui32Mode = if K % 2 = 0 then 0 else 1 := by
  rw [runTicks_mode key sw1 ticks s (by omega) hall, hboot, hlen]
  split <;> omega

/-- Three accepted presses from the reset state leave the mode at 1. -/
theorem mode_parity_witness :
    resetState.g_ui32Mode = 0 ∧ [(1, 1), (3, 1), (1, 1)].length = 3 ∧
      (∀ t ∈ [(1, 1), (3, 1), (1, 1)],
        isPressed sampleSw1 t = true ∧ isChanged sampleSw1 t = true) ∧
      (runTicks sampleKey sampleSw1 [(1, 1), (3, 1), (1, 1)] resetState).g_ui32Mode =
        if 3 % 2 = 0 then 0 else 1 :=
  ⟨rfl, rfl, by decide,
    mode_parity sampleKey sampleSw1 3 [(1, 1), (3, 1), (1, 1)] resetState rfl rfl (by decide)⟩

/-- C2: for every state and every pin `p` of PC0..PC3, after a toggle whose
new mode is not zero (GPIO) the direction bit of `p` is clear (input), its
digital-enable bit is set and its alternate-function-select bit is clear;
after a toggle whose new mode is zero (Debug) its alternate-function-select
bit is set. -/
theorem toggle_pin_configuration (key : Nat) (s : State) (p : Nat) (hp : p < 4) :
    ((toggle key s).1.g_ui32Mode ≠ 0 →
        (toggle key s).1.DIR.testBit p = false ∧
        (toggle key s).1.DEN.testBit p = true ∧
        (toggle key s).1.AFSEL.testBit p = false) ∧
    ((toggle key s).1.g_ui32Mode = 0 → (toggle key s).1.AFSEL.testBit p = true) := by
  by_cases h : U32 (s.g_ui32Mode ^^^ 1) = 0
  · rw [toggle_state_jtag key s h]
    refine ⟨fun hne => absurd rfl hne, fun _ => ?_⟩
    simp only [testBit_U32, Nat.testBit_or, testBit_15]
    simp
    omega
  · rw [toggle_state_gpio key s h]
    refine ⟨fun _ => ⟨?_, ?_, ?_⟩, fun h0 => absurd h0 h⟩
    · simp only [testBit_U32, Nat.testBit_and, testBit_4294967280]
      simp
      omega
    · simp only [testBit_U32, Nat.testBit_or, testBit_15]
      simp
      omega
    · simp only [Nat.testBit_and, testBit_240]
      simp
      omega

/-- Pin PC2 after the toggle out of the reset state (into GPIO mode) and after
the toggle out of the GPIO sample state (into Debug mode). -/
theorem toggle_pin_configuration_witness :
    2 < 4 ∧
      (toggle sampleKey resetState).1.g_ui32Mode ≠ 0 ∧
      (toggle sampleKey resetState).1.DIR.testBit 2 = false ∧
      (toggle sampleKey resetState).1.DEN.testBit 2 = true ∧
      (toggle sampleKey resetState).1.AFSEL.testBit 2 = false ∧
      (toggle sampleKey gpioModeState).1.g_ui32Mode = 0 ∧
      (toggle sampleKey gpioModeState).1.AFSEL.testBit 2 = true :=
  ⟨by decide, by decide,
    ((toggle_pin_configuration sampleKey resetState 2 (by decide)).1 (by decide)).1,
    ((toggle_pin_configuration sampleKey resetState 2 (by decide)).1 (by decide)).2.1,
    ((toggle_pin_configuration sampleKey resetState 2 (by decide)).1 (by decide)).2.2,
    by decide,
    (toggle_pin_configuration sampleKey gpioModeState 2 (by decide)).2 (by decide)⟩

/-- C3, the claim as stated fails: from the reset state two consecutive
toggles leave the lock register at 0 and the commit-control register at 0,
where they held 1 and 240 before the first toggle. -/
theorem toggle_pair_overwrites :
    (toggleTwice sampleKey resetState).LOCK = 0 ∧ resetState.LOCK = 1 ∧
      (toggleTwice sampleKey resetState).CR = 0 ∧ resetState.CR = 240 ∧
      toggleTwice sampleKey resetState ≠ resetState := by
  decide

/-- C3, amended: for every state, two consecutive toggles restore `g_ui32Mode`
(as a 32-bit value) and leave the lock and commit-control registers at 0; the
pair is idempotent on the whole state, and it gives back the state it started
from exactly when that state is one a pair of toggles leaves. -/
theorem toggle_pair_idempotent (key : Nat) (s : State) :
    (toggleTwice key s).g_ui32Mode = U32 s.g_ui32Mode ∧
      (toggleTwice key s).LOCK = 0 ∧ (toggleTwice key s).CR = 0 ∧
      toggleTwice key (toggleTwice key s) = toggleTwice key s ∧
      (toggleTwice key s = s ↔ ∃ t : State, toggleTwice key t = s) := by
  refine ⟨toggleTwice_mode key s, toggle_LOCK key _, toggle_CR key _, toggleTwice_idem key s, ?_⟩
  constructor
  · intro h
    exact ⟨s, h⟩
  · rintro ⟨t, rfl⟩
    exact toggleTwice_idem key t

/-- The pair of toggles applied to the reset state, and applied again to the
state it leaves. -/
theorem toggle_pair_idempotent_witness :
    toggleTwice sampleKey resetState =
        { g_ui32Mode := 0, LOCK := 0, CR := 0, AFSEL := 15, DIR := 0, DEN := 15, DATA_N := 1 } ∧
      toggleTwice sampleKey (toggleTwice sampleKey resetState) =
        toggleTwice sampleKey resetState :=
  ⟨by decide, (toggle_pair_idempotent sampleKey resetState).2.2.2.1⟩

/-- C4: over every finite sequence of ticks, the number of ticks at which the
handler changes `g_ui32Mode`, and the number of indicator updates in the
concatenated trace, both equal the number of ticks whose poll reports the button
pressed and changed; ticks on which the button is held (pressed, not changed)
add nothing, however many follow. -/
theorem toggles_per_edge (key sw1 : Nat) (ticks : List (Nat × Nat)) (s : State) :
    modeChanges key sw1 ticks s =
        ticks.countP (fun t => isPressed sw1 t && isChanged sw1 t) ∧
      (traceTicks key sw1 ticks s).countP Event.isPinWrite =
        ticks.countP (fun t => isPressed sw1 t && isChanged sw1 t) ∧
      (∀ held : List (Nat × Nat),
        (∀ t ∈ held, isPressed sw1 t = true ∧ isChanged sw1 t = false) →
          modeChanges key sw1 (ticks ++ held) s = modeChanges key sw1 ticks s) := by
  refine ⟨modeChanges_eq key sw1 ticks s, traceTicks_count key sw1 ticks s, ?_⟩
  intro held hheld
  rw [modeChanges_eq, modeChanges_eq, List.countP_append]
  have h0 : held.countP (fun t => isPressed sw1 t && isChanged sw1 t) = 0 := by
    rw [List.countP_eq_zero]
    intro t ht
    simp [(hheld t ht).2]
  omega

/-- C5: in the trace of one toggle, in either direction, for each pin `p` of
PC0..PC3 the write of the bit of `p` to the commit-control register occurs,
comes strictly after a write of the key to the lock register and strictly
before the alternate-function-select write for `p`; and between two
alternate-function-select writes for different pins there is always a
commit-control write. -/
theorem toggle_unlock_commit_order (key : Nat) (s : State) :
    (∀ p : Nat, p < 4 →
      (∃ j : Nat, (toggle key s).2[j]? = some (Event.store Reg.CR (2 ^ p))) ∧
      (∀ j : Nat, (toggle key s).2[j]? = some (Event.store Reg.CR (2 ^ p)) →
        (∃ i : Nat, i < j ∧ (toggle key s).2[i]? = some (Event.store Reg.LOCK (U32 key))) ∧
        (∃ (k : Nat) (e : Event),
          j < k ∧ (toggle key s).2[k]? = some e ∧ e.isAfselWriteFor p = true) ∧
        (∀ (k : Nat) (e : Event),
          (toggle key s).2[k]? = some e → e.isAfselWriteFor p = true → j < k))) ∧
    (∀ (p q k1 k2 : Nat) (e1 e2 : Event), p < 4 → q < 4 → p ≠ q → k1 < k2 →
      (toggle key s).2[k1]? = some e1 → e1.isAfselWriteFor p = true →
      (toggle key s).2[k2]? = some e2 → e2.isAfselWriteFor q = true →
      ∃ c v : Nat, k1 < c ∧ c < k2 ∧ (toggle key s).2[c]? = some (Event.store Reg.CR v)) := by
  constructor
  · intro p hp
    refine ⟨⟨3 * p + 1, toggle_trace_at_cr key s p hp⟩, ?_⟩
    intro j hj
    have hj3 := toggle_trace_idx_cr key s p j hp hj
    refine ⟨⟨3 * p, by omega, toggle_trace_at_lock key s p (by omega)⟩, ?_, ?_⟩
    · obtain ⟨e, he1, he2⟩ := toggle_trace_at_afsel key s p hp
      exact ⟨3 * p + 2, e, by omega, he1, he2⟩
    · intro k e hk he
      have := toggle_trace_idx_afsel key s p k e hp hk he
      omega
  · intro p q k1 k2 e1 e2 hp hq _ hlt h1 hp1 h2 hq2
    have i1 := toggle_trace_idx_afsel key s p k1 e1 hp h1 hp1
    have i2 := toggle_trace_idx_afsel key s q k2 e2 hq h2 hq2
    exact ⟨3 * q + 1, 2 ^ q, by omega, by omega, toggle_trace_at_cr key s q hq⟩

/-- C6, the claim as stated fails: in the toggle out of the reset state (into
GPIO mode) the write of 0 to the lock register is entry 14 of the trace and is
the last lock write, and entry 15, after it, is the pin-type call, which
assigns the alternate-function-select register: on a port whose register
holds 15 that call leaves 0. -/
theorem toggle_afsel_assigned_after_relock :
    (toggle sampleKey resetState).2[14]? = some (Event.store Reg.LOCK 0) ∧
      (toggle sampleKey resetState).2[15]? = some (Event.pinTypeGPIOInput 15) ∧
      (Event.pinTypeGPIOInput 15).assignsAfsel = true ∧
      (ROM_GPIOPinTypeGPIOInput 15 (resetState, [])).1.AFSEL = 0 ∧ resetState.AFSEL = 15 ∧
      ¬ (∀ (k : Nat) (e : Event),
          14 < k → (toggle sampleKey resetState).2[k]? = some e → e.assignsAfsel = false) := by
  refine ⟨by decide, by decide, by decide, by decide, by decide, ?_⟩
  intro hall
  exact absurd (hall 15 (Event.pinTypeGPIOInput 15) (by decide) (by decide)) (by decide)

/-- C6, amended: with a nonzero 32-bit key, every toggle re-locks the port.  The
trace has a write of 0, a value that is not the key, to the lock register; no
lock write comes later; each of the four per-pin alternate-function-select
writes comes before it and no read-modify-write of that register comes after
it.  The only entry after the re-lock that assigns the
alternate-function-select register is the pin-type call, present exactly when
the new mode is not 0 (GPIO); the register holds the value of the last per-pin
write when the handler returns; and the lock register then holds 0, not the
key. -/
theorem toggle_relocks (key : Nat) (s : State) (hkey : U32 key ≠ 0) :
    ∃ n : Nat,
      (toggle key s).2[n]? = some (Event.store Reg.LOCK 0) ∧
      Event.store Reg.LOCK 0 ≠ Event.store Reg.LOCK (U32 key) ∧
      (∀ k v : Nat, (toggle key s).2[k]? = some (Event.store Reg.LOCK v) → k ≤ n) ∧
      (∀ p : Nat, p < 4 →
        (∃ (k : Nat) (e : Event),
          k < n ∧ (toggle key s).2[k]? = some e ∧ e.isAfselWriteFor p = true) ∧
        (∀ (k : Nat) (e : Event),
          (toggle key s).2[k]? = some e → e.isAfselWriteFor p = true → k < n)) ∧
      (∀ (k : Nat) (e : Event),
        n < k → (toggle key s).2[k]? = some e → e.isAfselWrite = false) ∧
      (∀ (k : Nat) (e : Event),
        n < k → (toggle key s).2[k]? = some e → e.assignsAfsel = true →
          (toggle key s).1.g_ui32Mode ≠ 0 ∧ e = Event.pinTypeGPIOInput 15) ∧
      ((toggle key s).1.g_ui32Mode ≠ 0 →
        ∃ k : Nat, n < k ∧ (toggle key s).2[k]? = some (Event.pinTypeGPIOInput 15)) ∧
      (∃ (k : Nat) (e : Event), k < n ∧ (toggle key s).2[k]? = some e ∧
        e.isAfselWrite = true ∧ e.stored = some (toggle key s).1.AFSEL) ∧
      (toggle key s).1.LOCK = 0 ∧
      (toggle key s).1.LOCK ≠ U32 key := by
  refine ⟨14, toggle_trace_at_relock key s, ?_, ?_, ?_, ?_, ?_, ?_, ?_, toggle_LOCK key s, ?_⟩
  · intro hc
    exact hkey (Event.store.inj hc).2.symm
  · intro k v hk
    exact toggle_trace_idx_lock key s k v hk
  · intro p hp
    constructor
    · obtain ⟨e, he1, he2⟩ := toggle_trace_at_afsel key s p hp
      exact ⟨3 * p + 2, e, by omega, he1, he2⟩
    · intro k e hk he
      have := toggle_trace_idx_afsel key s p k e hp hk he
      omega
  · intro k e hlt hk
    cases hw : e.isAfselWrite
    · rfl
    · have := toggle_trace_idx_afsel_any key s k e hk hw
      omega
  · intro k e hlt hk he
    exact toggle_trace_assigns_after key s k e hlt hk he
  · intro hm
    exact ⟨15, by norm_num, toggle_trace_pinType key s hm⟩
  · obtain ⟨e, he1, he2, he3⟩ := toggle_trace_last_afsel key s
    exact ⟨11, e, by norm_num, he1, isAfselWrite_of_for 3 e he2, he3⟩
  · rw [toggle_LOCK]
    exact fun hc => hkey hc.symm

/-- The re-lock of the toggle out of the reset state, with the key of the
TM4C parts. -/
theorem toggle_relocks_witness :
    U32 sampleKey ≠ 0 ∧
      ∃ n : Nat,
        (toggle sampleKey resetState).2[n]? = some (Event.store Reg.LOCK 0) ∧
        Event.store Reg.LOCK 0 ≠ Event.store Reg.LOCK (U32 sampleKey) ∧
        (∀ k v : Nat, (toggle sampleKey resetState).2[k]? = some (Event.store Reg.LOCK v) → k ≤ n) ∧
        (∀ p : Nat, p < 4 →
          (∃ (k : Nat) (e : Event),
            k < n ∧ (toggle sampleKey resetState).2[k]? = some e ∧ e.isAfselWriteFor p = true) ∧
          (∀ (k : Nat) (e : Event),
            (toggle sampleKey resetState).2[k]? = some e → e.isAfselWriteFor p = true → k < n)) ∧
        (∀ (k : Nat) (e : Event),
          n < k → (toggle sampleKey resetState).2[k]? = some e → e.isAfselWrite = false) ∧
        (∀ (k : Nat) (e : Event),
          n < k → (toggle sampleKey resetState).2[k]? = some e → e.assignsAfsel = true →
            (toggle sampleKey resetState).1.g_ui32Mode ≠ 0 ∧ e = Event.pinTypeGPIOInput 15) ∧
        ((toggle sampleKey resetState).1.g_ui32Mode ≠ 0 →
          ∃ k : Nat, n < k ∧ (toggle sampleKey resetState).2[k]? = some (Event.pinTypeGPIOInput 15)) ∧
        (∃ (k : Nat) (e : Event), k < n ∧ (toggle sampleKey resetState).2[k]? = some e ∧
          e.isAfselWrite = true ∧ e.stored = some (toggle sampleKey resetState).1.AFSEL) ∧
        (toggle sampleKey resetState).1.LOCK = 0 ∧
        (toggle sampleKey resetState).1.LOCK ≠ U32 sampleKey :=
  ⟨by decide, toggle_relocks sampleKey resetState (by decide)⟩

/-- C7: right after every toggle the indicator (the levels of PN0 and PN1) is
`indicatorOf` of the new mode, whatever the indicator and the rest of the
state were before: PN0 high and PN1 low (value 1) when the new mode is 0, PN0
low and PN1 high (value 2) otherwise.  The LED on PN0 is on exactly when the
new mode is 0, the two modes give different indicator values, and the
indicator update is the last entry of the trace. -/
theorem toggle_indicator (key : Nat) (s : State) :
    indicator (toggle key s).1 = indicatorOf (toggle key s).1.g_ui32Mode ∧
      ledOn (toggle key s).1 = decide ((toggle key s).1.g_ui32Mode = 0) ∧
      indicatorOf 0 = 1 ∧ indicatorOf 1 = 2 ∧
      (∀ m : Nat, m ≠ 0 → indicatorOf m ≠ indicatorOf 0) ∧
      (toggle key s).2.getLast? =
        some (Event.pinWrite 3 (indicatorOf (toggle key s).1.g_ui32Mode)) ∧
      (∀ (key2 : Nat) (s2 : State),
        (toggle key2 s2).1.g_ui32Mode = (toggle key s).1.g_ui32Mode →
          indicator (toggle key2 s2).1 = indicator (toggle key s).1 ∧
          ledOn (toggle key2 s2).1 = ledOn (toggle key s).1) := by
  refine ⟨toggle_indicator_value key s, toggle_ledOn key s, by decide, by decide, ?_,
    toggle_trace_last key s, ?_⟩
  · intro m hm
    simp [indicatorOf, hm, GPIO_PIN_0, GPIO_PIN_1]
  · intro key2 s2 h
    rw [toggle_indicator_value, toggle_indicator_value, toggle_ledOn, toggle_ledOn, h]
    exact ⟨rfl, rfl⟩

/-- C8: on a tick whose poll reports the button not pressed, or pressed but
not changed, the handler does nothing: the state it returns (mode, port C
registers, indicator) is the state it was given and its trace is empty. -/
theorem handler_idle (key sw1 : Nat) (poll : Nat × Nat) (s : State)
    (h : isPressed sw1 poll = false ∨ (isPressed sw1 poll = true ∧ isChanged sw1 poll = false)) :
    (SysTickIntHandler key sw1 poll s).1 = s ∧ (SysTickIntHandler key sw1 poll s).2 = [] := by
  have hb : (isPressed sw1 poll && isChanged sw1 poll) = false := by
    rcases h with h | ⟨_, h⟩ <;> simp [h]
  rw [handler_cases]
  simp [hb]

/-- A tick with the button held (pressed, not changed) in the reset state. -/
theorem handler_idle_witness :
    (isPressed sampleSw1 (1, 0) = false ∨
        (isPressed sampleSw1 (1, 0) = true ∧ isChanged sampleSw1 (1, 0) = false)) ∧
      (SysTickIntHandler sampleKey sampleSw1 (1, 0) resetState).1 = resetState ∧
      (SysTickIntHandler sampleKey sampleSw1 (1, 0) resetState).2 = [] :=
  ⟨by decide, handler_idle sampleKey sampleSw1 (1, 0) resetState (by decide)⟩

/-- C9: the protected sequence is applied pin by pin.  In the trace of one
toggle, a commit-control write that is directly followed by an
alternate-function-select write stores the bit of one pin `p` of PC0..PC3
(1, 2, 4 or 8); that following write is the `|=` of this bit when the new mode
is 0 and the `&=` of its complement within the eight pin bits otherwise; it
leaves bit `p` set in the first case and clear in the second, and leaves the
bit of every other pin of the port (bits 0 to 7) as it was; when the value
loaded fits in the eight pin bits, every bit other than `p` is left as it was.
Each of the four pin bits is written to the commit-control register exactly
once, and each of these writes is directly followed by the
alternate-function-select write for that pin. -/
theorem toggle_per_pin (key : Nat) (s : State) :
    (∀ (i v : Nat) (e : Event),
      (toggle key s).2[i]? = some (Event.store Reg.CR v) →
      (toggle key s).2[i + 1]? = some e → e.isAfselWrite = true →
      ∃ p : Nat, p < 4 ∧ v = 2 ^ p ∧
        ∃ old new : Nat,
          e = (if (toggle key s).1.g_ui32Mode = 0 then Event.orStore Reg.AFSEL v old new
               else Event.andStore Reg.AFSEL (255 - v) old new) ∧
          new = U32 (if (toggle key s).1.g_ui32Mode = 0 then old ||| v else old &&& (255 - v)) ∧
          new.testBit p = decide ((toggle key s).1.g_ui32Mode = 0) ∧
          (∀ b : Nat, b < 8 → b ≠ p → new.testBit b = old.testBit b) ∧
          (old < 256 → ∀ b : Nat, b ≠ p → new.testBit b = old.testBit b)) ∧
    (∀ p : Nat, p < 4 → (toggle key s).2.count (Event.store Reg.CR (2 ^ p)) = 1) ∧
    (∀ p : Nat, p < 4 → ∃ (i : Nat) (e : Event),
      (toggle key s).2[i]? = some (Event.store Reg.CR (2 ^ p)) ∧
      (toggle key s).2[i + 1]? = some e ∧ e.isAfselWriteFor p = true) := by
  refine ⟨?_, toggle_trace_count_cr key s, ?_⟩
  · intro i v e h1 h2 he
    by_cases h : U32 (s.g_ui32Mode ^^^ 1) = 0
    · have hm : (toggle key s).1.g_ui32Mode = 0 := by rw [toggle_mode, h]
      obtain ⟨p, hp, _, hv, old, hold⟩ := toggle_trace_cr_afsel_jtag key s h i v e h1 h2 he
      rw [hm, hv, hold]
      simp only [if_true, decide_True]
      exact ⟨p, hp, rfl, old, _, rfl, rfl, (or_bit old p hp).1, (or_bit old p hp).2,
        fun hold8 b hne => or_bit_all old p hp hold8 b hne⟩
    · have hm : (toggle key s).1.g_ui32Mode ≠ 0 := by rw [toggle_mode]; exact h
      obtain ⟨p, hp, _, hv, old, hold⟩ := toggle_trace_cr_afsel_gpio key s h i v e h1 h2 he
      rw [hv, hold]
      simp only [hm, if_false, decide_False]
      refine ⟨p, hp, rfl, old, _, rfl, rfl, (and_bit old p hp).1, (and_bit old p hp).2, ?_⟩
      intro hold8 b hne
      by_cases hb : b < 8
      · exact (and_bit old p hp).2 b hb hne
      · exact and_bit_all old p hold8 b (not_lt.mp hb)
  · intro p hp
    obtain ⟨e, he1, he2⟩ := toggle_trace_at_afsel key s p hp
    exact ⟨3 * p + 1, e, toggle_trace_at_cr key s p hp, he1, he2⟩

/-- C10: for every state and a toggle in either direction, each of bits 4 to 7
of the alternate-function-select register (pins PC4..PC7) has the same value
after the toggle as before, and every read-modify-write of that register in
the trace stores the value of that bit that it loaded. -/
theorem toggle_afsel_other_pins (key : Nat) (s : State) (b : Nat) (h4 : 4 ≤ b) (h8 : b < 8) :
    (toggle key s).1.AFSEL.testBit b = s.AFSEL.testBit b ∧
      ∀ (k : Nat) (e : Event), (toggle key s).2[k]? = some e → e.isAfselWrite = true →
        ∃ mask old new : Nat,
          (e = Event.orStore Reg.AFSEL mask old new ∨
            e = Event.andStore Reg.AFSEL mask old new) ∧
          new.testBit b = old.testBit b := by
  constructor
  · by_cases h : U32 (s.g_ui32Mode ^^^ 1) = 0
    · rw [toggle_state_jtag key s h]
      simp only [testBit_U32, Nat.testBit_or, testBit_15]
      cases s.AFSEL.testBit b <;> simp <;> omega
    · rw [toggle_state_gpio key s h]
      simp only [Nat.testBit_and, testBit_240]
      cases s.AFSEL.testBit b <;> simp
      omega
  · intro k e hk he
    obtain ⟨p, hp, old, hshape | hshape⟩ := toggle_trace_afsel_shape key s k e hk he
    · exact ⟨_, old, _, Or.inl hshape, (or_bit old p hp).2 b h8 (by omega)⟩
    · exact ⟨_, old, _, Or.inr hshape, (and_bit old p hp).2 b h8 (by omega)⟩

/-- Bit 5 of the alternate-function-select register across the toggle out of
the GPIO sample state, where that bit is set. -/
theorem toggle_afsel_other_pins_witness :
    4 ≤ 5 ∧ 5 < 8 ∧ gpioModeState.AFSEL.testBit 5 = true ∧
      (toggle sampleKey gpioModeState).1.AFSEL.testBit 5 = gpioModeState.AFSEL.testBit 5 :=
  ⟨by decide, by decide, by decide,
    (toggle_afsel_other_pins sampleKey gpioModeState 5 (by decide) (by decide)).1⟩

end GpioJtag
